import Mathlib

/-!
Verification development for the `ecto_libsql` native layer: a shallow
embedding of the registry / transaction-guard / cursor / batch / classifier
code of `src/native/ecto_libsql/src/` (transaction.rs, cursor.rs, utils.rs,
batch.rs, decode.rs, savepoint.rs), together with theorems checking the
specification's claims about it.

Registries (process-wide `Mutex<HashMap<String, _>>` statics in the source)
are modelled as explicit finite-map states `String → Option _` threaded
through each operation; the mutex itself serialises access, so one
sequential step of the model corresponds to one critical section of the
source.  The database engine (libsql) is an external collaborator and is
modelled as an oracle parameter giving the outcome of each engine call.
-/

namespace EctoLibSql

/-- Error values of the native layer.  The source reports errors as
`rustler::Error::Term(Box::new(<message>))`; we keep one constructor per
distinct message site that the claims talk about. -/
inductive RegError where
  | transactionNotFound
  | ownershipMismatch
  | alreadyConsumed
  | entryMissing
  | cursorNotFound
  | cursorOwnership
  | invalidConnection
  | statementNotFound
  | statementOwnership
  | validationError
  | engineError (msg : String)
  deriving Repr, DecidableEq

/-- From `models.rs` `TransactionEntry`: the owning connection id plus the
engine's open transaction handle (opaque here, identified by a number). -/
structure TransactionEntry where
  conn_id : String
  handle : Nat
  deriving Repr, DecidableEq

/-- The transaction registry `TXN_REGISTRY : Mutex<HashMap<String, TransactionEntry>>`,
viewed as the map it holds. -/
def TxnRegistry : Type := String → Option TransactionEntry

/-- Insert with the replacing semantics of `HashMap::insert`. -/
def registryInsert (m : TxnRegistry) (k : String) (v : TransactionEntry) : TxnRegistry :=
  fun x => if x = k then some v else m x

/-- The map left behind by `HashMap::remove(k)`. -/
def registryErase (m : TxnRegistry) (k : String) : TxnRegistry :=
  fun x => if x = k then none else m x

/-- From `transaction.rs` `TransactionEntryGuard`: RAII guard holding a
transaction entry outside the registry. -/
structure TransactionEntryGuard where
  trx_id : String
  entry : Option TransactionEntry
  consumed : Bool
  deriving Repr, DecidableEq

/-- Model of `TransactionEntryGuard::take(trx_id, conn_id)` (transaction.rs:73-94):
remove the entry from the registry; if absent fail with "Transaction not
found"; if the owner mismatches, re-insert and fail with "Transaction does
not belong to this connection"; otherwise hand the entry to a fresh guard.
Returns the call's outcome together with the registry state it leaves. -/
def take (m : TxnRegistry) (trx_id conn_id : String) :
    Except RegError TransactionEntryGuard × TxnRegistry :=
  match m trx_id with
  | none => (.error .transactionNotFound, m)
  | some entry =>
    let m1 := registryErase m trx_id
    if entry.conn_id = conn_id then
      (.ok { trx_id := trx_id, entry := some entry, consumed := false }, m1)
    else
      (.error .ownershipMismatch, registryInsert m1 trx_id entry)

/-- Model of `TransactionEntryGuard::transaction()` (transaction.rs:100-111): borrow
the entry; error if already consumed or missing. -/
def TransactionEntryGuard.transactionRef (g : TransactionEntryGuard) :
    Except RegError TransactionEntry :=
  if g.consumed then .error .alreadyConsumed
  else
    match g.entry with
    | some e => .ok e
    | none => .error .entryMissing

/-- Model of `TransactionEntryGuard::consume()` (transaction.rs:120-133): mark the
guard consumed and move the entry out, so `drop` will not re-insert it.
Returns the moved entry (or the error) plus the guard as it is left for its
destructor. -/
def consume (g : TransactionEntryGuard) :
    Except RegError TransactionEntry × TransactionEntryGuard :=
  if g.consumed then (.error .alreadyConsumed, g)
  else
    match g.entry with
    | some e => (.ok e, { g with consumed := true, entry := none })
    | none => (.error .entryMissing, { g with consumed := true, entry := none })

/-- Model of `impl Drop for TransactionEntryGuard` (transaction.rs:136-151): if the
entry is still present, re-insert it under the registry lock.  (The
lock-poisoned best-effort path only arises during a panic of another thread
and is outside this sequential model.) -/
def dropGuard (g : TransactionEntryGuard) (m : TxnRegistry) : TxnRegistry :=
  match g.entry with
  | some e => registryInsert m g.trx_id e
  | none => m

/-! ## Cursor manager (cursor.rs) -/

/-- From `models.rs` `CursorData`: owning connection, buffered column names,
the fully materialised row set, and the read position.  Row values are left
abstract in `ν` (the slicing logic never inspects them; term encoding at the
NIF boundary is outside the model). -/
structure CursorData (ν : Type) where
  conn_id : String
  columns : List String
  rows : List (List ν)
  position : Nat
  deriving Repr, DecidableEq

/-- The cursor registry `CURSOR_REGISTRY`, viewed as the map it holds. -/
def CursorRegistry (ν : Type) : Type := String → Option (CursorData ν)

/-- What `fetch_cursor` returns to the caller: the tuple
`(columns, rows, fetch_count)` of cursor.rs:339. -/
structure FetchResult (ν : Type) where
  columns : List String
  rows : List (List ν)
  count : Nat
  deriving Repr, DecidableEq

/-- Model of `fetch_cursor(conn_id, cursor_id, max_rows)` (cursor.rs:279-341): look the
cursor up, verify ownership, compute
`fetch_count = min(max_rows, rows.len() - position)` (saturating), return the
slice `rows[position..position+fetch_count]` and advance the position; when
`fetch_count = 0` return the column names with no rows and do not advance. -/
def fetch_cursor {ν : Type} (reg : CursorRegistry ν) (conn_id cursor_id : String)
    (max_rows : Nat) : Except RegError (FetchResult ν) × CursorRegistry ν :=
  match reg cursor_id with
  | none => (.error .cursorNotFound, reg)
  | some cursor =>
    if cursor.conn_id ≠ conn_id then
      (.error .cursorOwnership, reg)
    else
      let remaining := cursor.rows.length - cursor.position
      let fetch_count := min remaining max_rows
      if fetch_count = 0 then
        (.ok { columns := cursor.columns, rows := [], count := 0 }, reg)
      else
        let end_pos := cursor.position + fetch_count
        let fetched := (cursor.rows.drop cursor.position).take fetch_count
        (.ok { columns := cursor.columns, rows := fetched, count := fetch_count },
         fun x => if x = cursor_id then some { cursor with position := end_pos } else reg x)

/-! ## Prepared statement cache (statement.rs) -/

/-- The statement registry `STMT_REGISTRY` holds `(owning_conn_id, statement)`
pairs; the compiled statement handle is opaque (a number). -/
def StmtRegistry : Type := String → Option (String × Nat)

/-- The ownership-checked lookup shared by every prepared-statement operation
(statement.rs: `query_prepared`, `execute_prepared`, `statement_column_count`,
..., each of which does connection check → registry lookup →
`verify_statement_ownership` (decode.rs:47-54) before using the handle).
These operations only read the registries; the map they leave behind is
returned to make that explicit. -/
def stmt_access (connReg : String → Option Nat) (sreg : StmtRegistry)
    (conn_id stmt_id : String) : Except RegError Nat × StmtRegistry :=
  if (connReg conn_id).isNone then
    (.error .invalidConnection, sreg)
  else
    match sreg stmt_id with
    | none => (.error .statementNotFound, sreg)
    | some (stored_conn_id, handle) =>
      if stored_conn_id ≠ conn_id then (.error .statementOwnership, sreg)
      else (.ok handle, sreg)

/-! ## Statement-shape classifier (utils.rs `should_use_query`)

The source works on `sql.as_bytes()`; the model takes the byte list
directly (for ASCII text the bytes coincide with the code points, see
`strBytes`). -/

/-- Bytes `u8::is_ascii_whitespace` accepts: space, tab, newline, form feed, carriage
return. -/
def isWsB (b : Nat) : Bool := b = 9 || b = 10 || b = 12 || b = 13 || b = 32

/-- Check for "followed by whitespace or end of string" (utils.rs:354 and 380). -/
def wsOrEnd : List Nat → Bool
  | [] => true
  | b :: _ => isWsB b

/-- Case-insensitive comparison of a leading span against an uppercase-ASCII
target, as in utils.rs:347-352 and 369-374: a byte `c` matches target byte
`t` when `c == t || c == t.to_ascii_lowercase()`, and for the uppercase
letters used here the lowercase form is `t + 32`.  Fails when fewer than
`target.length` bytes remain. -/
def ciMatchAt : List Nat → List Nat → Bool
  | [], _ => true
  | _ :: _, [] => false
  | t :: ts, c :: cs => (c = t || c = t + 32) && ciMatchAt ts cs

/-- The bytes of `SELECT`. -/
def selBytes : List Nat := [83, 69, 76, 69, 67, 84]

/-- The bytes of `RETURNING`. -/
def retBytes : List Nat := [82, 69, 84, 85, 82, 78, 73, 78, 71]

/-- The `RETURNING` scan loop of utils.rs:360-387: at each index, if the
previous byte was whitespace (or we are at the start, `prevWs` initially
true), check a case-insensitive `RETURNING` followed by whitespace or
end-of-string.  Suffixes shorter than nine bytes can never match
(`ciMatchAt` fails), matching the loop bound `i <= len - 9`. -/
def scanRet : Bool → List Nat → Bool
  | _, [] => false
  | prevWs, b :: rest =>
    (prevWs && ciMatchAt retBytes (b :: rest) && wsOrEnd ((b :: rest).drop 9))
      || scanRet (isWsB b) rest

/-- Model of `should_use_query(sql)` (utils.rs:327-390): empty input is false; skip
leading ASCII whitespace (all-whitespace input is false); accept a leading
case-insensitive `SELECT` followed by whitespace or end of input; otherwise
scan for a word-bounded case-insensitive `RETURNING` (guarded by
`len >= 9`). -/
def should_use_query (sql : List Nat) : Bool :=
  if sql.isEmpty then false
  else if (sql.dropWhile isWsB).isEmpty then false
  else
    (ciMatchAt selBytes (sql.dropWhile isWsB) && wsOrEnd ((sql.dropWhile isWsB).drop 6))
      || (if 9 ≤ sql.length then scanRet true sql else false)

/-- Byte list of an ASCII string (code points equal UTF-8 bytes below 128),
used to write concrete classifier inputs. -/
def strBytes (s : String) : List Nat := s.data.map Char.toNat

/-- Clause (a) of the classifier claim: after skipping leading whitespace
the first six characters read `SELECT` case-insensitively and are followed
by whitespace or end of input. -/
def SpecSelect (sql : List Nat) : Prop :=
  ciMatchAt selBytes (sql.dropWhile isWsB) = true ∧
    wsOrEnd ((sql.dropWhile isWsB).drop 6) = true

/-- Clause (b) of the classifier claim: the input contains a
case-insensitive occurrence of `RETURNING` preceded by whitespace or the
start of the string and followed by whitespace or the end of the string. -/
def SpecReturning (sql : List Nat) : Prop :=
  ∃ pre mid post, sql = pre ++ mid ++ post ∧
    mid.length = 9 ∧ ciMatchAt retBytes mid = true ∧
    (pre = [] ∨ ∃ pre2 b, pre = pre2 ++ [b] ∧ isWsB b = true) ∧
    wsOrEnd post = true

/-! ## Row collection and result shape (utils.rs) -/

/-- One raw engine row: the column names it reports and its values (value
payloads abstract in `ν`). -/
structure RawRow (ν : Type) where
  names : List String
  values : List ν
  deriving Repr, DecidableEq

/-- The `{columns, rows, num_rows}` result map built by `collect_rows` and
`build_empty_result` (utils.rs). -/
structure QueryResult (ν : Type) where
  columns : List String
  rows : List (List ν)
  num_rows : Nat
  deriving Repr, DecidableEq

/-- Model of `build_empty_result(env, rows_affected)` (utils.rs:69-75): empty column
and row lists, `num_rows` = the affected-row count. -/
def build_empty_result {ν : Type} (rows_affected : Nat) : QueryResult ν :=
  { columns := [], rows := [], num_rows := rows_affected }

/-- Model of `collect_rows` (utils.rs:194-263): column names are read off the first
row (an empty row set therefore reports no columns); each row contributes
its first `column_count` values, and a failed column read aborts with an
error.  Blob-term allocation failure at the NIF boundary is a host-memory
condition outside this model. -/
def collect_rows {ν : Type} (rows : List (RawRow ν)) : Except String (QueryResult ν) :=
  let column_names := ((rows.head?).map (·.names)).getD []
  if rows.all (fun r => column_names.length ≤ r.values.length) then
    .ok { columns := column_names,
          rows := rows.map (fun r => r.values.take column_names.length),
          num_rows := rows.length }
  else .error "Failed to read column"

/-! ## Query within a transaction (transaction.rs `query_with_trx_args`) -/

/-- Outcome oracle for running one statement on an open transaction: the
row-producing call (`trx.query`) and the row-count call (`trx.execute`). -/
structure TrxEngine (ν : Type) where
  queryRes : Except String (List (RawRow ν))
  execRes : Except String Nat
  deriving Repr

/-- Model of `query_with_trx_args` (transaction.rs:325-404): classify the statement
with `should_use_query`, take the transaction entry with ownership check,
run the row-producing or row-count engine call accordingly, and let the
guard re-insert the entry on every path.  (The advisory constraint-index
enrichment of engine error messages is folded into the message.) -/
def query_with_trx_args {ν : Type} (m : TxnRegistry) (trx_id conn_id : String)
    (query : List Nat) (engine : TransactionEntry → TrxEngine ν) :
    Except RegError (QueryResult ν) × TxnRegistry :=
  let use_query := should_use_query query
  match take m trx_id conn_id with
  | (.error e, m') => (.error e, m')
  | (.ok g, m1) =>
    match g.transactionRef with
    | .error e => (.error e, dropGuard g m1)
    | .ok entry =>
      let res :=
        if use_query then
          match (engine entry).queryRes with
          | .ok rows =>
            (match collect_rows rows with
             | .ok r => .ok r
             | .error e => .error (.engineError e))
          | .error e => .error (.engineError ("Query failed: " ++ e))
        else
          match (engine entry).execRes with
          | .ok rows_affected => .ok (build_empty_result rows_affected)
          | .error e => .error (.engineError ("Execute failed: " ++ e))
      (res, dropGuard g m1)

/-! ## Commit / rollback (transaction.rs `commit_or_rollback_transaction`) -/

/-- A terminal engine call on a transaction handle. -/
inductive TxAction where
  | commitA (handle : Nat)
  | rollbackA (handle : Nat)
  deriving Repr, DecidableEq

/-- Model of `commit_or_rollback_transaction(trx_id, conn_id, _mode, _syncx, param)`
(transaction.rs:435-475): take with ownership check, `consume()` the guard
(so nothing is ever re-inserted), then commit when `param == "commit"` and
roll back for every other `param` value.  Returns the outcome, the registry
left behind, and the terminal engine calls performed. -/
def commit_or_rollback_transaction (m : TxnRegistry) (trx_id conn_id param : String)
    (engine : TxAction → Except String Unit) :
    Except RegError String × TxnRegistry × List TxAction :=
  match take m trx_id conn_id with
  | (.error e, m') => (.error e, m', [])
  | (.ok g, m1) =>
    match consume g with
    | (.error e, g1) => (.error e, dropGuard g1 m1, [])
    | (.ok entry, g1) =>
      let act := if param = "commit" then TxAction.commitA entry.handle
                 else TxAction.rollbackA entry.handle
      let m2 := dropGuard g1 m1
      match engine act with
      | .ok _ => (.ok (param ++ " success"), m2, [act])
      | .error e => (.error (.engineError ("TOKIO_RUNTIME ERR " ++ e)), m2, [act])

/-! ## Savepoints (decode.rs, savepoint.rs) -/

/-- Model of `validate_savepoint_name` (decode.rs:74-84): reject when the name is
empty, contains a character other than ASCII alphanumerics or underscore,
or its first character is an ASCII digit (`is_none_or` makes the empty name
trip this check too). -/
def validate_savepoint_name (name : String) : Except RegError Unit :=
  if name.isEmpty
      || !(name.data.all fun c => c.isAlphanum || c = '_')
      || (match name.data.head? with
          | none => true
          | some c => c.isDigit) then
    .error .validationError
  else
    .ok ()

/-- The shared shape of `savepoint`, `release_savepoint` and
`rollback_to_savepoint` (savepoint.rs:32-120): validate the name, take the
transaction with ownership check, format the statement with the name
interpolated after `sqlHead`, run it, and let the guard re-insert the entry.
The final list holds the SQL text handed to the engine (empty when nothing
was sent). -/
def savepointOp (sqlHead : String) (m : TxnRegistry) (conn_id trx_id name : String)
    (engine : String → Nat → Except String Unit) :
    Except RegError Unit × TxnRegistry × List String :=
  match validate_savepoint_name name with
  | .error e => (.error e, m, [])
  | .ok _ =>
    match take m trx_id conn_id with
    | (.error e, m') => (.error e, m', [])
    | (.ok g, m1) =>
      match g.transactionRef with
      | .error e => (.error e, dropGuard g m1, [])
      | .ok entry =>
        let sql := sqlHead ++ name
        let m2 := dropGuard g m1
        match engine sql entry.handle with
        | .ok _ => (.ok (), m2, [sql])
        | .error e => (.error (.engineError e), m2, [sql])

/-- Model of `savepoint` (savepoint.rs:32-50). -/
def savepoint := savepointOp "SAVEPOINT "

/-- Model of `release_savepoint` (savepoint.rs:66-84). -/
def release_savepoint := savepointOp "RELEASE SAVEPOINT "

/-- Model of `rollback_to_savepoint` (savepoint.rs:100-120). -/
def rollback_to_savepoint := savepointOp "ROLLBACK TO SAVEPOINT "

/-! ## Transactional batch (batch.rs `execute_transactional_batch`) -/

/-- Outcome oracle for the engine calls a transactional batch makes:
starting the transaction, running statement `i`, rolling back, and
committing. -/
structure BatchEngine (ν : Type) where
  beginRes : Except String Unit
  stmtRes : Nat → Except String (List (RawRow ν))
  rollbackRes : Except String Unit
  commitRes : Except String Unit

/-- Engine calls a batch run performs, in order. -/
inductive BatchAction where
  | beginT
  | runStmt (i : Nat)
  | rollbackT
  | commitT
  deriving Repr, DecidableEq

/-- The statement loop of `execute_transactional_batch` (batch.rs:157-183)
over statements `i, i+1, ...` with `remaining` to go.  On a statement error
the rollback is attempted with its outcome discarded
(`let _ = trx.rollback().await;` — `rollbackRes` is never read) and the
original statement error is returned; a row-collection error propagates the
collection error; after the last statement the commit is attempted. -/
def execBatchGo {ν : Type} (eng : BatchEngine ν) :
    Nat → Nat → List (QueryResult ν) → List BatchAction →
    Except String (List (QueryResult ν)) × List BatchAction
  | 0, _, acc, acts =>
    (match eng.commitRes with
     | .ok _ => (.ok acc, acts ++ [.commitT])
     | .error e => (.error ("Commit failed: " ++ e), acts ++ [.commitT]))
  | remaining + 1, i, acc, acts =>
    match eng.stmtRes i with
    | .ok rows =>
      (match collect_rows rows with
       | .ok r => execBatchGo eng remaining (i + 1) (acc ++ [r]) (acts ++ [.runStmt i])
       | .error e => (.error e, acts ++ [.runStmt i]))
    | .error e =>
      (.error ("Batch statement error: " ++ e), acts ++ [.runStmt i, .rollbackT])

/-- Model of `execute_transactional_batch` (batch.rs:111-185) over `n` decoded
statements. -/
def execute_transactional_batch {ν : Type} (eng : BatchEngine ν) (n : Nat) :
    Except String (List (QueryResult ν)) × List BatchAction :=
  match eng.beginRes with
  | .error e => (.error ("Begin transaction failed: " ++ e), [.beginT])
  | .ok _ => execBatchGo eng n 0 [] [.beginT]

/-- A statement the batch loop gets through: the engine accepts it and its
rows collect without error. -/
def stmtCollectOk {ν : Type} (eng : BatchEngine ν) (j : Nat) : Prop :=
  ∃ rows r, eng.stmtRes j = .ok rows ∧ collect_rows rows = .ok r

/-! Basic facts about `take` used by several claims. -/

theorem take_ok_of (m : TxnRegistry) (tid cid : String) (e : TransactionEntry)
    (hm : m tid = some e) (hc : e.conn_id = cid) :
    take m tid cid =
      (.ok { trx_id := tid, entry := some e, consumed := false }, registryErase m tid) := by
  unfold take
  rw [hm]
  simp [hc]

theorem take_ok_inv (m : TxnRegistry) (tid cid : String) (g : TransactionEntryGuard)
    (m1 : TxnRegistry) (h : take m tid cid = (.ok g, m1)) :
    ∃ e, m tid = some e ∧ e.conn_id = cid ∧
      g = { trx_id := tid, entry := some e, consumed := false } ∧
      m1 = registryErase m tid := by
  unfold take at h
  cases hm : m tid with
  | none => rw [hm] at h; exact absurd (congrArg Prod.fst h) (by simp)
  | some e =>
    rw [hm] at h
    by_cases hc : e.conn_id = cid
    · simp only [hc, if_pos rfl] at h
      obtain ⟨h1, h2⟩ := Prod.mk.injEq .. ▸ h
      cases h1
      exact ⟨e, rfl, hc, rfl, h2.symm⟩
    · simp only [if_neg hc] at h
      exact absurd (congrArg Prod.fst h) (by simp)

theorem registryErase_self (m : TxnRegistry) (k : String) :
    registryErase m k k = none := by
  simp [registryErase]

theorem registryInsert_get (m : TxnRegistry) (k : String) (v : TransactionEntry) :
    registryInsert m k v k = some v := by
  simp [registryInsert]

theorem registryInsert_get_ne (m : TxnRegistry) (k x : String) (v : TransactionEntry)
    (h : x ≠ k) : registryInsert m k v x = m x := by
  simp [registryInsert, h]

/-! ## Claim theorems: guard protocol -/

/-- C1: a guard obtained from a successful `take(trx_id, conn_id)` and then
dropped without `consume()` restores the registry exactly — afterwards
`trx_id` resolves to the very entry (same owning connection id) it had before
the take, and every other key is untouched; whereas dropping after an
explicit `consume()` leaves `trx_id` absent. -/
theorem guard_drop_restores_registry (m : TxnRegistry) (tid cid : String)
    (g : TransactionEntryGuard) (m1 : TxnRegistry)
    (h : take m tid cid = (.ok g, m1)) :
    (∀ k, dropGuard g m1 k = m k) ∧ dropGuard (consume g).2 m1 tid = none := by
  obtain ⟨e, hm, _, hg, hm1⟩ := take_ok_inv m tid cid g m1 h
  subst hg hm1
  constructor
  · intro k
    by_cases hk : k = tid
    · subst hk
      simp [dropGuard, registryInsert, hm]
    · simp [dropGuard, registryInsert, registryErase, hk]
  · simp [consume, dropGuard, registryErase]

/-- C1 witness: a concrete registry mapping "t1" to a connection-"c1" entry;
take then drop restores the binding of "t1", and consume-then-drop removes it. -/
theorem guard_drop_restores_registry_witness :
    (∀ k, dropGuard { trx_id := "t1", entry := some { conn_id := "c1", handle := 7 },
                      consumed := false }
        (registryErase (fun k => if k = "t1" then some { conn_id := "c1", handle := 7 }
                                 else none) "t1") k =
      (fun k => if k = "t1" then some { conn_id := "c1", handle := 7 } else none) k) ∧
    dropGuard (consume { trx_id := "t1", entry := some { conn_id := "c1", handle := 7 },
                         consumed := false }).2
        (registryErase (fun k => if k = "t1" then some { conn_id := "c1", handle := 7 }
                                 else none) "t1") "t1" = none :=
  guard_drop_restores_registry
    (fun k => if k = "t1" then some { conn_id := "c1", handle := 7 } else none)
    "t1" "c1"
    { trx_id := "t1", entry := some { conn_id := "c1", handle := 7 }, consumed := false }
    (registryErase (fun k => if k = "t1" then some { conn_id := "c1", handle := 7 }
      else none) "t1")
    rfl

/-- C3: while a guard for `trx_id` is held, the entry is absent from the
transaction registry, so a second `take` on the same identifier — with any
caller connection id — fails with the resource-not-found error and leaves the
registry unchanged, rather than obtaining the entry. -/
theorem take_serializes (m : TxnRegistry) (tid cid : String)
    (g : TransactionEntryGuard) (m1 : TxnRegistry)
    (h : take m tid cid = (.ok g, m1)) :
    m1 tid = none ∧
      ∀ cid2, take m1 tid cid2 = (.error .transactionNotFound, m1) := by
  obtain ⟨e, _, _, _, hm1⟩ := take_ok_inv m tid cid g m1 h
  subst hm1
  have habs : registryErase m tid tid = none := registryErase_self m tid
  refine ⟨habs, fun cid2 => ?_⟩
  unfold take
  rw [habs]

/-- C3 witness: after taking "t1" on the concrete one-entry registry, a second
take of "t1" (even by the rightful owner "c1") reports not-found. -/
theorem take_serializes_witness :
    (registryErase (fun k => if k = "t1" then some { conn_id := "c1", handle := 7 }
                    else none) "t1") "t1" = none ∧
    ∀ cid2, take (registryErase (fun k => if k = "t1" then some { conn_id := "c1", handle := 7 }
                    else none) "t1") "t1" cid2 =
      (.error .transactionNotFound,
       registryErase (fun k => if k = "t1" then some { conn_id := "c1", handle := 7 }
        else none) "t1") :=
  take_serializes
    (fun k => if k = "t1" then some { conn_id := "c1", handle := 7 } else none)
    "t1" "c1"
    { trx_id := "t1", entry := some { conn_id := "c1", handle := 7 }, consumed := false }
    (registryErase (fun k => if k = "t1" then some { conn_id := "c1", handle := 7 }
      else none) "t1")
    rfl

/-- C2: every resource access with a caller connection id different from the
resource's owner fails with its ownership error and leaves the registry
contents exactly as they were: a mismatched `take` re-inserts the removed
transaction entry (the map is pointwise unchanged), a mismatched
`fetch_cursor` returns the cursor registry untouched (so the position is not
advanced), and a mismatched prepared-statement access errors with the
statement registry untouched. -/
theorem ownership_mismatch_no_mutation {ν : Type} (m : TxnRegistry) (tid cid : String)
    (e : TransactionEntry) (creg : CursorRegistry ν) (curid ccid : String) (c : CursorData ν)
    (connReg : String → Option Nat) (sreg : StmtRegistry) (sid scid owner : String)
    (hstmt : Nat)
    (hm : m tid = some e) (hc : e.conn_id ≠ cid)
    (hcur : creg curid = some c) (hcc : c.conn_id ≠ ccid)
    (hconn : (connReg scid).isNone = false) (hs : sreg sid = some (owner, hstmt))
    (hso : owner ≠ scid) :
    ((take m tid cid).1 = .error .ownershipMismatch ∧ ∀ k, (take m tid cid).2 k = m k) ∧
    (∀ max_rows, fetch_cursor creg ccid curid max_rows = (.error .cursorOwnership, creg)) ∧
    stmt_access connReg sreg scid sid = (.error .statementOwnership, sreg) := by
  refine ⟨⟨?_, ?_⟩, ?_, ?_⟩
  · unfold take
    rw [hm]
    simp [hc]
  · intro k
    unfold take
    rw [hm]
    simp only [if_neg hc]
    by_cases hk : k = tid
    · subst hk
      simp [registryInsert, hm]
    · simp [registryInsert, registryErase, hk]
  · intro max_rows
    unfold fetch_cursor
    rw [hcur]
    simp [hcc]
  · unfold stmt_access
    rw [hconn, hs]
    simp [hso]

/-- C2 witness: a concrete transaction, cursor and statement all owned by
"c1", each accessed by the stranger connection "c2". -/
theorem ownership_mismatch_no_mutation_witness :
    ((take (fun k => if k = "t1" then some { conn_id := "c1", handle := 7 } else none)
        "t1" "c2").1 = .error .ownershipMismatch ∧
      ∀ k, (take (fun k => if k = "t1" then some { conn_id := "c1", handle := 7 } else none)
        "t1" "c2").2 k =
        (fun k => if k = "t1" then some { conn_id := "c1", handle := 7 } else none) k) ∧
    (∀ max_rows,
      fetch_cursor (ν := Nat)
        (fun k => if k = "cur1"
          then some { conn_id := "c1", columns := ["a"], rows := [[0]], position := 0 }
          else none) "c2" "cur1" max_rows =
        (.error .cursorOwnership,
         fun k => if k = "cur1"
          then some { conn_id := "c1", columns := ["a"], rows := [[0]], position := 0 }
          else none)) ∧
    stmt_access (fun k => if k = "c2" then some 1 else none)
      (fun k => if k = "s1" then some ("c1", 5) else none) "c2" "s1" =
      (.error .statementOwnership, fun k => if k = "s1" then some ("c1", 5) else none) :=
  ownership_mismatch_no_mutation
    (fun k => if k = "t1" then some { conn_id := "c1", handle := 7 } else none)
    "t1" "c2" { conn_id := "c1", handle := 7 }
    (fun k => if k = "cur1"
      then some { conn_id := "c1", columns := ["a"], rows := [[0]], position := 0 }
      else none) "cur1" "c2"
    { conn_id := "c1", columns := ["a"], rows := [[0]], position := 0 }
    (fun k => if k = "c2" then some 1 else none)
    (fun k => if k = "s1" then some ("c1", 5) else none) "s1" "c2" "c1" 5
    rfl (by decide) rfl (by decide) rfl rfl (by decide)

/-- C4: with the owning connection id, `fetch_cursor` on a cursor at position
`p ≤ row_count` returns exactly `min(max_rows, row_count - p)` rows — the
contiguous slice of the buffered rows starting at `p` — with the cursor's
column names, advances the position by that count, leaves other cursors
untouched; `max_rows = 0` does not change the registry at all, and an
exhausted cursor (`p = row_count`) yields an empty, non-error result. -/
theorem fetch_cursor_pagination {ν : Type} (reg : CursorRegistry ν) (cid curid : String)
    (c : CursorData ν) (max_rows : Nat)
    (hreg : reg curid = some c) (hown : c.conn_id = cid)
    (_hpos : c.position ≤ c.rows.length) :
    (fetch_cursor reg cid curid max_rows).1 =
      .ok { columns := c.columns,
            rows := (c.rows.drop c.position).take max_rows,
            count := min max_rows (c.rows.length - c.position) } ∧
    ((fetch_cursor reg cid curid max_rows).2 curid).map (·.position) =
      some (c.position + min max_rows (c.rows.length - c.position)) ∧
    (∀ x, x ≠ curid → (fetch_cursor reg cid curid max_rows).2 x = reg x) ∧
    (max_rows = 0 → (fetch_cursor reg cid curid max_rows).2 = reg) ∧
    (c.position = c.rows.length →
      (fetch_cursor reg cid curid max_rows).1 =
        .ok { columns := c.columns, rows := [], count := 0 }) := by
  have hlen : (c.rows.drop c.position).length = c.rows.length - c.position :=
    List.length_drop c.position c.rows
  have hslice : (c.rows.drop c.position).take (min (c.rows.length - c.position) max_rows) =
      (c.rows.drop c.position).take max_rows := by
    rcases Nat.le_total (c.rows.length - c.position) max_rows with hle | hle
    · rw [min_eq_left hle]
      rw [List.take_of_length_le (le_of_eq hlen), List.take_of_length_le (hlen ▸ hle)]
    · rw [min_eq_right hle]
  unfold fetch_cursor
  rw [hreg]
  have hne : ¬(c.conn_id ≠ cid) := by simp [hown]
  simp only [if_neg hne]
  by_cases hfc : min (c.rows.length - c.position) max_rows = 0
  · have hmin0 : min max_rows (c.rows.length - c.position) = 0 := by
      rw [Nat.min_comm]; exact hfc
    have hempty : (c.rows.drop c.position).take max_rows = [] := by
      rcases Nat.min_eq_zero_iff.mp hfc with h0 | h0
      · have : c.rows.drop c.position = [] := List.eq_nil_of_length_eq_zero (by omega)
        simp [this]
      · simp [h0]
    rw [if_pos hfc]
    refine ⟨by rw [hempty, hmin0], ?_, fun x hx => rfl, fun _ => rfl, fun _ => rfl⟩
    dsimp only
    rw [hreg, hmin0]
    rfl
  · have hmn : min max_rows (c.rows.length - c.position) =
        min (c.rows.length - c.position) max_rows := Nat.min_comm _ _
    simp only [if_neg hfc]
    refine ⟨?_, ?_, ?_, ?_, ?_⟩
    · rw [hslice, hmn]
    · dsimp only
      simp [hmn]
    · intro x hx
      simp [hx]
    · intro h0
      exact absurd (by simp [h0] : min (c.rows.length - c.position) max_rows = 0) hfc
    · intro hexh
      exact absurd (by simp [hexh] : min (c.rows.length - c.position) max_rows = 0) hfc

/-- C4 witness: a three-row cursor at position 1 fetched with `max_rows = 5`
returns its last two rows and advances the position to 3. -/
theorem fetch_cursor_pagination_witness :
    (fetch_cursor (ν := Nat)
        (fun k => if k = "cur1"
          then some { conn_id := "c1", columns := ["a"], rows := [[10], [20], [30]],
                      position := 1 }
          else none) "c1" "cur1" 5).1 =
      .ok { columns := ["a"], rows := [[20], [30]], count := min 5 (3 - 1) } ∧
    ((fetch_cursor (ν := Nat)
        (fun k => if k = "cur1"
          then some { conn_id := "c1", columns := ["a"], rows := [[10], [20], [30]],
                      position := 1 }
          else none) "c1" "cur1" 5).2 "cur1").map (·.position) = some (1 + min 5 (3 - 1)) := by
  have h := fetch_cursor_pagination (ν := Nat)
    (fun k => if k = "cur1"
      then some { conn_id := "c1", columns := ["a"], rows := [[10], [20], [30]],
                  position := 1 }
      else none) "c1" "cur1"
    { conn_id := "c1", columns := ["a"], rows := [[10], [20], [30]], position := 1 }
    5 rfl rfl (by decide)
  exact ⟨h.1, h.2.1⟩

/-! ## Classifier lemmas (C5) -/

theorem ciMatchAt_le_length (t l : List Nat) (h : ciMatchAt t l = true) :
    t.length ≤ l.length := by
  induction t generalizing l with
  | nil => simp
  | cons a ts ih =>
    cases l with
    | nil => simp [ciMatchAt] at h
    | cons c cs =>
      simp only [ciMatchAt, Bool.and_eq_true] at h
      simpa using ih cs h.2

theorem ciMatchAt_take (t l : List Nat) (h : ciMatchAt t l = true) :
    ciMatchAt t (l.take t.length) = true := by
  induction t generalizing l with
  | nil => simp [ciMatchAt]
  | cons a ts ih =>
    cases l with
    | nil => simp [ciMatchAt] at h
    | cons c cs =>
      simp only [ciMatchAt, Bool.and_eq_true] at h
      simp only [List.length_cons, List.take_succ_cons, ciMatchAt, Bool.and_eq_true]
      exact ⟨h.1, ih cs h.2⟩

theorem ciMatchAt_append (t mid post : List Nat)
    (hlen : mid.length = t.length) (h : ciMatchAt t mid = true) :
    ciMatchAt t (mid ++ post) = true := by
  induction t generalizing mid with
  | nil => simp [ciMatchAt]
  | cons a ts ih =>
    cases mid with
    | nil => simp at hlen
    | cons c cs =>
      simp only [ciMatchAt, Bool.and_eq_true] at h
      simp only [List.cons_append, ciMatchAt, Bool.and_eq_true]
      exact ⟨h.1, ih cs (by simpa using hlen) h.2⟩

/-- Characterisation of the `RETURNING` scan loop: it succeeds exactly when
the input splits as `pre ++ rest` with a case-insensitive `RETURNING` at the
head of `rest` followed by whitespace or end of input, where `pre` either is
empty with the incoming previous-byte-was-whitespace flag set, or ends in a
whitespace byte. -/
theorem scanRet_iff (p : Bool) (l : List Nat) :
    scanRet p l = true ↔
      ∃ pre rest, l = pre ++ rest ∧ ciMatchAt retBytes rest = true ∧
        wsOrEnd (rest.drop 9) = true ∧
        ((pre = [] ∧ p = true) ∨ ∃ pre2 b, pre = pre2 ++ [b] ∧ isWsB b = true) := by
  induction l generalizing p with
  | nil =>
    constructor
    · intro h
      exact absurd h (by simp [scanRet])
    · rintro ⟨pre, rest, hsplit, hci, -, -⟩
      obtain ⟨hpre, hrest⟩ := List.append_eq_nil.mp hsplit.symm
      rw [hrest] at hci
      exact absurd hci (by simp [ciMatchAt, retBytes])
  | cons b l' ih =>
    constructor
    · intro h
      rcases Bool.or_eq_true_iff.mp (by simpa only [scanRet] using h) with hl | hr
      · obtain ⟨h1, hws⟩ := Bool.and_eq_true_iff.mp hl
        obtain ⟨hp, hci⟩ := Bool.and_eq_true_iff.mp h1
        exact ⟨[], b :: l', rfl, hci, hws, .inl ⟨rfl, hp⟩⟩
      · obtain ⟨pre, rest, hsplit, hci, hws, hbound⟩ := (ih (isWsB b)).mp hr
        refine ⟨b :: pre, rest, by rw [List.cons_append, ← hsplit], hci, hws, ?_⟩
        rcases hbound with ⟨hpe, hwsb⟩ | ⟨pre2, b2, hpe, hwsb⟩
        · exact .inr ⟨[], b, by simp [hpe], hwsb⟩
        · exact .inr ⟨b :: pre2, b2, by rw [hpe, List.cons_append], hwsb⟩
    · rintro ⟨pre, rest, hsplit, hci, hws, hbound⟩
      cases pre with
      | nil =>
        rcases hbound with ⟨-, hp⟩ | ⟨pre2, b2, hpe, -⟩
        · simp only [List.nil_append] at hsplit
          subst hp
          rw [← hsplit] at hci hws
          show scanRet true (b :: l') = true
          simp only [scanRet]
          exact Bool.or_eq_true_iff.mpr
            (.inl (Bool.and_eq_true_iff.mpr
              ⟨Bool.and_eq_true_iff.mpr ⟨rfl, hci⟩, hws⟩))
        · exact absurd hpe.symm (by simp)
      | cons a pre' =>
        simp only [List.cons_append] at hsplit
        have hb : b = a := by
          injection hsplit with h1 h2
        have hl' : l' = pre' ++ rest := by
          injection hsplit with h1 h2
        rcases hbound with ⟨hpe, -⟩ | ⟨pre2, b2, hpe, hwsb⟩
        · exact absurd hpe (by simp)
        · show scanRet p (b :: l') = true
          simp only [scanRet]
          refine Bool.or_eq_true_iff.mpr (.inr ?_)
          cases pre2 with
          | nil =>
            have hb2 : a = b2 ∧ pre' = [] := by
              rw [List.nil_append] at hpe
              constructor
              · injection hpe
              · injection hpe with h1 h2
            have hwsb' : isWsB b = true := by
              rw [hb, hb2.1]
              exact hwsb
            have hl2 : l' = rest := by
              rw [hl', hb2.2, List.nil_append]
            exact (ih (isWsB b)).mpr ⟨[], rest, hl2, hci, hws, .inl ⟨rfl, hwsb'⟩⟩
          | cons c pre2' =>
            have hpe2 : pre' = pre2' ++ [b2] := by
              rw [List.cons_append] at hpe
              injection hpe with h1 h2
            exact (ih (isWsB b)).mpr
              ⟨pre', rest, hl', hci, hws, .inr ⟨pre2', b2, hpe2, hwsb⟩⟩

/-- The claim's word-bounded-`RETURNING` predicate in the split form the
scan loop produces. -/
theorem specReturning_iff_scan (sql : List Nat) :
    SpecReturning sql ↔
      ∃ pre rest, sql = pre ++ rest ∧ ciMatchAt retBytes rest = true ∧
        wsOrEnd (rest.drop 9) = true ∧
        (pre = [] ∨ ∃ pre2 b, pre = pre2 ++ [b] ∧ isWsB b = true) := by
  constructor
  · rintro ⟨pre, mid, post, hsplit, hlen, hci, hbound, hws⟩
    refine ⟨pre, mid ++ post, by rw [hsplit, List.append_assoc],
      ciMatchAt_append retBytes mid post (by rw [hlen]; rfl) hci, ?_, hbound⟩
    have hdrop : (mid ++ post).drop 9 = post := by
      have : (mid ++ post).drop mid.length = post := List.drop_left mid post
      rwa [hlen] at this
    rw [hdrop]
    exact hws
  · rintro ⟨pre, rest, hsplit, hci, hws, hbound⟩
    have h9 : 9 ≤ rest.length := ciMatchAt_le_length retBytes rest hci
    refine ⟨pre, rest.take 9, rest.drop 9, ?_, ?_, ?_, hbound, hws⟩
    · rw [hsplit, List.append_assoc, List.take_append_drop]
    · rw [List.length_take]
      omega
    · exact ciMatchAt_take retBytes rest hci

/-- An all-whitespace (or empty) input contains no word-bounded
`RETURNING`. -/
theorem not_specReturning_of_allWs (sql : List Nat)
    (h : sql.dropWhile isWsB = []) : ¬ SpecReturning sql := by
  rintro ⟨pre, mid, post, hsplit, hlen, hci, -, -⟩
  have hall : ∀ b ∈ sql, isWsB b = true :=
    List.dropWhile_eq_nil_iff.mp h
  cases mid with
  | nil => simp at hlen
  | cons c cs =>
    have hc : c ∈ sql := by
      rw [hsplit]
      simp
    have hwsc := hall c hc
    have hc' : (decide (c = 82) || decide (c = 82 + 32)) = true := by
      have : ciMatchAt retBytes (c :: cs) = true := hci
      rw [show retBytes = 82 :: [69, 84, 85, 82, 78, 73, 78, 71] from rfl] at this
      exact (Bool.and_eq_true_iff.mp this).1
    rcases Bool.or_eq_true_iff.mp hc' with h82 | h114
    · rw [decide_eq_true_eq] at h82
      subst h82
      exact absurd hwsc (by decide)
    · rw [decide_eq_true_eq] at h114
      subst h114
      exact absurd hwsc (by decide)

/-- The scan with the start-of-string flag set finds exactly the
word-bounded occurrences. -/
theorem scanRet_true_iff_spec (sql : List Nat) :
    scanRet true sql = true ↔ SpecReturning sql := by
  rw [scanRet_iff, specReturning_iff_scan]
  constructor
  · rintro ⟨pre, rest, hs, hci, hws, hb⟩
    exact ⟨pre, rest, hs, hci, hws, hb.imp (fun h => h.1) id⟩
  · rintro ⟨pre, rest, hs, hci, hws, hb⟩
    exact ⟨pre, rest, hs, hci, hws, hb.imp (fun h => ⟨h, rfl⟩) id⟩

/-- A word-bounded `RETURNING` needs at least nine bytes of input. -/
theorem specReturning_length (sql : List Nat) (h : SpecReturning sql) :
    9 ≤ sql.length := by
  obtain ⟨pre, rest, hs, hci, -, -⟩ := (specReturning_iff_scan sql).mp h
  have := ciMatchAt_le_length retBytes rest hci
  rw [hs]
  simp only [List.length_append]
  have h9 : retBytes.length = 9 := rfl
  omega

/-- C5: `should_use_query` returns true exactly when the statement starts
(after leading whitespace) with word-bounded case-insensitive `SELECT`, or
contains a case-insensitive `RETURNING` preceded by whitespace or start of
input and followed by whitespace or end of input; in particular it is false
on the empty string, pure whitespace and `"SELECTED FROM t"`, and true on
`"SELECT * FROM t"` and `"INSERT INTO t VALUES (1) RETURNING id"`.  (The
model is a total function, so no input can make it panic.) -/
theorem should_use_query_correct :
    (∀ sql : List Nat,
      should_use_query sql = true ↔ (SpecSelect sql ∨ SpecReturning sql)) ∧
    should_use_query (strBytes "") = false ∧
    should_use_query (strBytes "   ") = false ∧
    should_use_query (strBytes "SELECTED FROM t") = false ∧
    should_use_query (strBytes "SELECT * FROM t") = true ∧
    should_use_query (strBytes "INSERT INTO t VALUES (1)") = false ∧
    should_use_query (strBytes "INSERT INTO t VALUES (1) RETURNING id") = true := by
  refine ⟨?_, rfl, rfl, rfl, rfl, rfl, rfl⟩
  intro sql
  unfold should_use_query
  by_cases hemp : sql.isEmpty
  · rw [if_pos hemp]
    have hnil : sql = [] := by simpa using hemp
    subst hnil
    constructor
    · intro h
      exact absurd h (by simp)
    · rintro (⟨hci, -⟩ | hret)
      · exact absurd hci (by decide)
      · exact absurd hret (not_specReturning_of_allWs [] rfl)
  · rw [if_neg hemp]
    by_cases hws : (sql.dropWhile isWsB).isEmpty
    · rw [if_pos hws]
      have hwsnil : sql.dropWhile isWsB = [] := by simpa using hws
      constructor
      · intro h
        exact absurd h (by simp)
      · rintro (⟨hci, -⟩ | hret)
        · rw [hwsnil] at hci
          exact absurd hci (by decide)
        · exact absurd hret (not_specReturning_of_allWs sql hwsnil)
    · rw [if_neg hws]
      constructor
      · intro h
        rcases Bool.or_eq_true_iff.mp h with hsel | hret
        · exact .inl (Bool.and_eq_true_iff.mp hsel)
        · by_cases h9 : 9 ≤ sql.length
          · rw [if_pos h9] at hret
            exact .inr ((scanRet_true_iff_spec sql).mp hret)
          · rw [if_neg h9] at hret
            exact absurd hret (by simp)
      · rintro (⟨h1, h2⟩ | hret)
        · exact Bool.or_eq_true_iff.mpr (.inl (Bool.and_eq_true_iff.mpr ⟨h1, h2⟩))
        · refine Bool.or_eq_true_iff.mpr (.inr ?_)
          rw [if_pos (specReturning_length sql hret)]
          exact (scanRet_true_iff_spec sql).mpr hret

/-! ## Savepoint validation (C7) -/

/-- C7: the savepoint operations reject a name — with a validation error,
before the registry is touched or any SQL text is handed to the engine —
exactly unless the name is non-empty, made of ASCII alphanumerics or
underscore only, and does not start with an ASCII digit; `"sp_1"` is
accepted while `"1abc"`, `""` and `"sp one"` are rejected. -/
theorem savepoint_validation_correct :
    (∀ name : String,
      validate_savepoint_name name = .ok () ↔
        (name ≠ "" ∧ (∀ c ∈ name.data, (c.isAlphanum || c = '_') = true) ∧
          ∀ c, name.data.head? = some c → c.isDigit = false)) ∧
    (∀ name : String, validate_savepoint_name name = .error .validationError →
      ∀ (m : TxnRegistry) (cid tid : String) (eng : String → Nat → Except String Unit),
        savepoint m cid tid name eng = (.error .validationError, m, []) ∧
        release_savepoint m cid tid name eng = (.error .validationError, m, []) ∧
        rollback_to_savepoint m cid tid name eng = (.error .validationError, m, [])) ∧
    validate_savepoint_name "sp_1" = .ok () ∧
    validate_savepoint_name "1abc" = .error .validationError ∧
    validate_savepoint_name "" = .error .validationError ∧
    validate_savepoint_name "sp one" = .error .validationError := by
  refine ⟨?_, ?_, rfl, rfl, rfl, rfl⟩
  · intro name
    unfold validate_savepoint_name
    by_cases h1 : name.isEmpty
    · rw [if_pos (by simp [h1])]
      have : name = "" := (String.isEmpty_iff name).mp h1
      subst this
      simp
    · by_cases h2 : name.data.all (fun c => c.isAlphanum || c = '_')
      · rcases hh : name.data.head? with _ | c
        · have : name.data = [] := by
            cases hd : name.data with
            | nil => rfl
            | cons x xs =>
              rw [hd] at hh
              exact absurd hh (by simp)
          have : name = "" := String.ext_iff.mpr this
          exact absurd ((String.isEmpty_iff name).mpr this) h1
        · by_cases h3 : c.isDigit
          · rw [if_pos (by simp [hh, h3])]
            constructor
            · intro h
              exact absurd h (by simp)
            · rintro ⟨-, -, hdig⟩
              exact absurd h3 (by simp [hdig c rfl])
          · rw [if_neg (by simp [h1, h2, hh, h3])]
            simp only [true_iff]
            refine ⟨fun he => h1 (by rw [he]; rfl), List.all_eq_true.mp h2, ?_⟩
            intro c' hc'
            injection hc' with hcc
            rw [← hcc]
            exact Bool.eq_false_iff.mpr h3
      · rw [if_pos (by simp [h2])]
        constructor
        · intro h
          exact absurd h (by simp)
        · rintro ⟨-, hall, -⟩
          exact absurd (List.all_eq_true.mpr hall) h2
  · intro name hbad m cid tid eng
    refine ⟨?_, ?_, ?_⟩ <;>
      · simp only [savepoint, release_savepoint, rollback_to_savepoint, savepointOp]
        rw [hbad]

/-- C7 witness: `"sp one"` is rejected by all three operations before the
registry or the engine is touched. -/
theorem savepoint_validation_correct_witness :
    savepoint (fun _ => none) "c1" "t1" "sp one" (fun _ _ => .ok ()) =
      (.error .validationError, (fun _ => none : TxnRegistry), []) ∧
    validate_savepoint_name "sp_1" = .ok () :=
  ⟨(savepoint_validation_correct.2.1 "sp one" rfl (fun _ => none) "c1" "t1"
      (fun _ _ => .ok ())).1,
    savepoint_validation_correct.2.2.1⟩

/-! ## Commit / rollback (C8, C10) -/

/-- C8: once `commit_or_rollback_transaction` passes the ownership check,
the entry is consumed and never re-inserted: whatever the engine answers for
the commit or rollback call, afterwards the transaction id no longer
resolves in the registry. -/
theorem commit_or_rollback_removes_entry (m : TxnRegistry) (tid cid : String)
    (e : TransactionEntry) (param : String) (engine : TxAction → Except String Unit)
    (hm : m tid = some e) (hc : e.conn_id = cid) :
    (commit_or_rollback_transaction m tid cid param engine).2.1 tid = none := by
  unfold commit_or_rollback_transaction
  rw [take_ok_of m tid cid e hm hc]
  simp only [consume, Bool.false_eq_true, if_neg, ite_false]
  cases engine (if param = "commit" then TxAction.commitA e.handle
                else TxAction.rollbackA e.handle) with
  | ok _ => simp [dropGuard, registryErase_self]
  | error err => simp [dropGuard, registryErase_self]

/-- C8 witness: committing "t1" with an engine whose commit fails still
leaves "t1" unresolved in the registry. -/
theorem commit_or_rollback_removes_entry_witness :
    (commit_or_rollback_transaction
      (fun k => if k = "t1" then some { conn_id := "c1", handle := 7 } else none)
      "t1" "c1" "commit" (fun _ => .error "disk full")).2.1 "t1" = none :=
  commit_or_rollback_removes_entry
    (fun k => if k = "t1" then some { conn_id := "c1", handle := 7 } else none)
    "t1" "c1" { conn_id := "c1", handle := 7 } "commit" (fun _ => .error "disk full")
    rfl rfl

/-- C10: `commit_or_rollback_transaction` dispatches by equality with
`"commit"` alone — any other `param` value (a misspelling included) performs
a rollback of the transaction's handle, and with the engine accepting it the
call reports success rather than rejecting the unknown action. -/
theorem commit_or_rollback_dispatch (m : TxnRegistry) (tid cid : String)
    (e : TransactionEntry) (param : String) (engine : TxAction → Except String Unit)
    (hm : m tid = some e) (hc : e.conn_id = cid) (hp : param ≠ "commit") :
    (commit_or_rollback_transaction m tid cid param engine).2.2 =
      [TxAction.rollbackA e.handle] ∧
    (engine (TxAction.rollbackA e.handle) = .ok () →
      (commit_or_rollback_transaction m tid cid param engine).1 =
        .ok (param ++ " success")) := by
  unfold commit_or_rollback_transaction
  rw [take_ok_of m tid cid e hm hc]
  simp only [consume, Bool.false_eq_true, if_neg, ite_false, if_neg hp]
  constructor
  · cases engine (TxAction.rollbackA e.handle) with
    | ok _ => rfl
    | error err => rfl
  · intro hok
    rw [hok]

/-- C10 witness: the misspelled action `"comit"` rolls the transaction back
and reports `"comit success"`. -/
theorem commit_or_rollback_dispatch_witness :
    (commit_or_rollback_transaction
        (fun k => if k = "t1" then some { conn_id := "c1", handle := 7 } else none)
        "t1" "c1" "comit" (fun _ => .ok ())).2.2 = [TxAction.rollbackA 7] ∧
    (commit_or_rollback_transaction
        (fun k => if k = "t1" then some { conn_id := "c1", handle := 7 } else none)
        "t1" "c1" "comit" (fun _ => .ok ())).1 = .ok ("comit" ++ " success") := by
  have h := commit_or_rollback_dispatch
    (fun k => if k = "t1" then some { conn_id := "c1", handle := 7 } else none)
    "t1" "c1" { conn_id := "c1", handle := 7 } "comit" (fun _ => .ok ())
    rfl rfl (by decide)
  exact ⟨h.1, h.2 rfl⟩

/-! ## Result shape of the row-count path (C9) -/

/-- C9: a statement the classifier routes to the row-count path
(`should_use_query = false`) that the engine accepts with affected count `n`
yields `{columns := [], rows := [], num_rows := n}` — the very shape
`collect_rows` produces for a genuine query with zero rows, which is
`build_empty_result 0`. -/
theorem rowcount_result_shape {ν : Type} (m : TxnRegistry) (tid cid : String)
    (e : TransactionEntry) (q : List Nat) (engine : TransactionEntry → TrxEngine ν)
    (n : Nat) (hm : m tid = some e) (hc : e.conn_id = cid)
    (hq : should_use_query q = false) (hex : (engine e).execRes = .ok n) :
    (query_with_trx_args m tid cid q engine).1 = .ok (build_empty_result n) ∧
    (build_empty_result n : QueryResult ν) =
      { columns := [], rows := [], num_rows := n } ∧
    collect_rows ([] : List (RawRow ν)) = .ok (build_empty_result 0) := by
  refine ⟨?_, rfl, rfl⟩
  unfold query_with_trx_args
  rw [take_ok_of m tid cid e hm hc]
  simp only [TransactionEntryGuard.transactionRef, Bool.false_eq_true, if_neg,
    ite_false, hq, hex]

/-- C9 witness: an INSERT without RETURNING, accepted with 3 affected rows,
returns the empty-shape result with count 3. -/
theorem rowcount_result_shape_witness :
    (query_with_trx_args (ν := Nat)
      (fun k => if k = "t1" then some { conn_id := "c1", handle := 7 } else none)
      "t1" "c1" (strBytes "INSERT INTO t VALUES (1)")
      (fun _ => { queryRes := .ok [], execRes := .ok 3 })).1 =
      .ok (build_empty_result 3) :=
  (rowcount_result_shape
    (fun k => if k = "t1" then some { conn_id := "c1", handle := 7 } else none)
    "t1" "c1" { conn_id := "c1", handle := 7 } (strBytes "INSERT INTO t VALUES (1)")
    (fun _ => { queryRes := .ok [], execRes := .ok 3 }) 3
    rfl rfl rfl rfl).1

/-! ## Transactional batch (C6) -/

theorem execBatchGo_fail {ν : Type} (eng : BatchEngine ν) (msg : String) (k : Nat) :
    ∀ (remaining i : Nat) (acc : List (QueryResult ν)) (acts : List BatchAction),
      k < remaining →
      (∀ j, j < k → stmtCollectOk eng (i + j)) →
      eng.stmtRes (i + k) = .error msg →
      execBatchGo eng remaining i acc acts =
        (.error ("Batch statement error: " ++ msg),
         acts ++ (List.range' i (k + 1)).map BatchAction.runStmt
           ++ [BatchAction.rollbackT]) := by
  induction k with
  | zero =>
    intro remaining i acc acts hlt hok hfail
    cases remaining with
    | zero => omega
    | succ r =>
      rw [show i + 0 = i from rfl] at hfail
      simp only [execBatchGo, hfail]
      simp [List.range']
  | succ k ih =>
    intro remaining i acc acts hlt hok hfail
    cases remaining with
    | zero => omega
    | succ r =>
      obtain ⟨rows, res, hs, hcoll⟩ := hok 0 (by omega)
      rw [show i + 0 = i from rfl] at hs
      simp only [execBatchGo, hs, hcoll]
      have hrec := ih r (i + 1) (acc ++ [res]) (acts ++ [.runStmt i]) (by omega)
        (fun j hj => by
          have := hok (j + 1) (by omega)
          rwa [show i + (j + 1) = i + 1 + j from by omega] at this)
        (by rwa [show i + 1 + k = i + (k + 1) from by omega])
      rw [hrec]
      simp [List.range'_succ]

theorem execBatchGo_ok {ν : Type} (eng : BatchEngine ν) :
    ∀ (remaining i : Nat) (acc : List (QueryResult ν)) (acts : List BatchAction),
      (∀ j, j < remaining → stmtCollectOk eng (i + j)) →
      ∃ results, execBatchGo eng remaining i acc acts =
        ((match eng.commitRes with
          | .ok _ => .ok (acc ++ results)
          | .error e => .error ("Commit failed: " ++ e)),
         acts ++ (List.range' i remaining).map BatchAction.runStmt
           ++ [BatchAction.commitT]) := by
  intro remaining
  induction remaining with
  | zero =>
    intro i acc acts hok
    refine ⟨[], ?_⟩
    simp only [execBatchGo]
    cases eng.commitRes <;> simp
  | succ r ih =>
    intro i acc acts hok
    obtain ⟨rows, res, hs, hcoll⟩ := hok 0 (by omega)
    rw [show i + 0 = i from rfl] at hs
    obtain ⟨results, hrec⟩ := ih (i + 1) (acc ++ [res]) (acts ++ [.runStmt i])
      (fun j hj => by
        have := hok (j + 1) (by omega)
        rwa [show i + (j + 1) = i + 1 + j from by omega] at this)
    refine ⟨res :: results, ?_⟩
    simp only [execBatchGo, hs, hcoll]
    rw [hrec]
    cases eng.commitRes <;> simp [List.range'_succ]

/-- Since `execBatchGo` never reads `rollbackRes`, engines agreeing on the fields
it does read run identically. -/
theorem execBatchGo_congr {ν : Type} (e1 e2 : BatchEngine ν)
    (hs : e1.stmtRes = e2.stmtRes) (hc : e1.commitRes = e2.commitRes) :
    ∀ (remaining i : Nat) (acc : List (QueryResult ν)) (acts : List BatchAction),
      execBatchGo e1 remaining i acc acts = execBatchGo e2 remaining i acc acts := by
  intro remaining
  induction remaining with
  | zero =>
    intro i acc acts
    simp only [execBatchGo, hc]
  | succ r ih =>
    intro i acc acts
    simp only [execBatchGo, hs]
    cases e2.stmtRes i with
    | ok rows =>
      dsimp only
      cases collect_rows rows with
      | ok res => exact ih (i + 1) (acc ++ [res]) (acts ++ [.runStmt i])
      | error e => rfl
    | error e => rfl

theorem execute_transactional_batch_rollback_independent {ν : Type}
    (eng : BatchEngine ν) (rb : Except String Unit) (n : Nat) :
    execute_transactional_batch { eng with rollbackRes := rb } n =
      execute_transactional_batch eng n := by
  unfold execute_transactional_batch
  have hb : ({ eng with rollbackRes := rb } : BatchEngine ν).beginRes = eng.beginRes := rfl
  rw [hb]
  cases eng.beginRes with
  | error e => rfl
  | ok u =>
    exact execBatchGo_congr
      { beginRes := Except.ok u, stmtRes := eng.stmtRes, rollbackRes := rb,
        commitRes := eng.commitRes } eng rfl rfl n 0 [] [.beginT]

/-- C6 counterexample: a one-statement batch whose statement fails with
`"stmt boom"` while the rollback itself fails with `"rollback boom"`
returns exactly `"Batch statement error: stmt boom"` — the output is
identical to the run in which the rollback succeeds, so no secondary note
about the rollback failure is ever attached. -/
theorem transactional_batch_no_rollback_note :
    execute_transactional_batch (ν := Nat)
      { beginRes := .ok (), stmtRes := fun _ => .error "stmt boom",
        rollbackRes := .error "rollback boom", commitRes := .ok () } 1 =
      (.error "Batch statement error: stmt boom",
       [BatchAction.beginT, BatchAction.runStmt 0, BatchAction.rollbackT]) ∧
    execute_transactional_batch (ν := Nat)
      { beginRes := .ok (), stmtRes := fun _ => .error "stmt boom",
        rollbackRes := .error "rollback boom", commitRes := .ok () } 1 =
      execute_transactional_batch (ν := Nat)
        { beginRes := .ok (), stmtRes := fun _ => .error "stmt boom",
          rollbackRes := .ok (), commitRes := .ok () } 1 :=
  ⟨rfl, rfl⟩

/-- C6 (amended): in `execute_transactional_batch`, when statement `i` is
the first to fail the implementation attempts the rollback and returns the
failing statement's error unchanged — the rollback outcome is discarded, so
no secondary note is attached when the rollback also fails (the output does
not depend on the rollback result at all); when every statement succeeds the
transaction is committed after the last one. -/
theorem transactional_batch_behavior {ν : Type} (eng : BatchEngine ν) (n i : Nat)
    (msg : String) (hbegin : eng.beginRes = .ok ()) :
    (i < n → eng.stmtRes i = .error msg → (∀ j, j < i → stmtCollectOk eng j) →
      execute_transactional_batch eng n =
        (.error ("Batch statement error: " ++ msg),
         BatchAction.beginT :: (List.range' 0 (i + 1)).map BatchAction.runStmt
           ++ [BatchAction.rollbackT]) ∧
      ∀ rb, execute_transactional_batch { eng with rollbackRes := rb } n =
        execute_transactional_batch eng n) ∧
    ((∀ j, j < n → stmtCollectOk eng j) → eng.commitRes = .ok () →
      ∃ results, execute_transactional_batch eng n =
        (.ok results,
         BatchAction.beginT :: (List.range' 0 n).map BatchAction.runStmt
           ++ [BatchAction.commitT])) := by
  constructor
  · intro hlt hfail hok
    constructor
    · unfold execute_transactional_batch
      rw [hbegin]
      have hrun := execBatchGo_fail eng msg i n 0 [] [.beginT] hlt
        (fun j hj => by simpa using hok j hj) (by simpa using hfail)
      rw [hrun]
      simp
    · intro rb
      exact execute_transactional_batch_rollback_independent eng rb n
  · intro hok hcommit
    unfold execute_transactional_batch
    rw [hbegin]
    obtain ⟨results, hrec⟩ := execBatchGo_ok eng n 0 [] [.beginT]
      (fun j hj => by simpa using hok j hj)
    refine ⟨results, ?_⟩
    rw [hrec, hcommit]
    simp

/-- C6 witness: a two-statement batch whose second statement fails with
`"boom"` (rollback itself failing) returns the statement error after
attempting begin, both statements and the rollback. -/
theorem transactional_batch_behavior_witness :
    execute_transactional_batch (ν := Nat)
      { beginRes := .ok (),
        stmtRes := fun j => if j = 0 then .ok [] else .error "boom",
        rollbackRes := .error "rollback boom", commitRes := .ok () } 2 =
      (.error ("Batch statement error: " ++ "boom"),
       BatchAction.beginT :: (List.range' 0 2).map BatchAction.runStmt
         ++ [BatchAction.rollbackT]) := by
  have h := (transactional_batch_behavior (ν := Nat)
    { beginRes := .ok (),
      stmtRes := fun j => if j = 0 then .ok [] else .error "boom",
      rollbackRes := .error "rollback boom", commitRes := .ok () } 2 1 "boom" rfl).1
  refine (h (by decide) rfl ?_).1
  intro j hj
  have hj0 : j = 0 := by omega
  subst hj0
  exact ⟨[], build_empty_result 0, rfl, rfl⟩

end EctoLibSql
